import Mathlib

/-!
Shallow embedding of the user-space TCP endpoint (src/lib.rs, src/tcp.rs)
and verification of its specification claims.

Machine u32 arithmetic is modelled over Nat with explicit reduction
modulo 2^32.  Code paths that panic in Rust (slice out of range,
copy_from_slice length mismatch, unimplemented!, u32 underflow in a
debug build) are modelled by Option, with none standing for the panic.
Wall-clock instants are modelled as Nat; the f64 smoothed RTT is
modelled over the rationals.
-/

namespace TcpRust

/-- Modulus of 32-bit wrapping arithmetic. -/
def u32Mod : Nat := 4294967296

/-- u32 wrapping_add. -/
def wadd (a b : Nat) : Nat := (a + b) % u32Mod

/-- u32 wrapping_sub: modular difference a - b in [0, 2^32). -/
def wsub (a b : Nat) : Nat := (a + (u32Mod - b % u32Mod)) % u32Mod

/-- The function wrapping_lt from src/tcp.rs line 501:
`lhs.wrapping_sub(rhs) > 2 ^ 31`.  In Rust the caret is XOR, so the
constant is 2 XOR 31 = 29, not 2147483648. -/
def wrapping_lt (lhs rhs : Nat) : Bool := wsub lhs rhs > 29

/-- The function is_between_wrapped from src/tcp.rs lines 504-506. -/
def is_between_wrapped (start x endv : Nat) : Bool :=
  wrapping_lt start x && wrapping_lt x endv

/-- Modelled from the spec: the sequence-number strict less-than the spec
mandates, comparing the wrapping difference against 2^31 (1 shl 31).
Used only to compare the source primitive against the spec. -/
def spec_wrapping_lt (lhs rhs : Nat) : Bool := wsub lhs rhs > 2 ^ 31

/-- Modelled from the spec: wrapping-strictly-between with the mandated
2^31 comparison. -/
def spec_is_between_wrapped (start x endv : Nat) : Bool :=
  spec_wrapping_lt start x && spec_wrapping_lt x endv

/-- Connection states (src/tcp.rs lines 13-20). -/
inductive State
  | SynRcvd
  | Estab
  | FinWait1
  | FinWait2
  | Closing
  | TimeWait
deriving DecidableEq

/-- Send Sequence Space (RFC 793 S3.2 F4), src/tcp.rs lines 92-107. -/
structure SendSequenceSpace where
  una : Nat
  nxt : Nat
  wnd : Nat
  up : Bool
  wl1 : Nat
  wl2 : Nat
  iss : Nat
deriving DecidableEq

/-- Receive Sequence Space (RFC 793 S3.2 F5), src/tcp.rs lines 121-130. -/
structure ReceiveSequenceSpace where
  nxt : Nat
  wnd : Nat
  up : Bool
  irs : Nat
deriving DecidableEq

/-- The Available bitflags (src/tcp.rs lines 6-11). -/
structure Available where
  read : Bool
  write : Bool
deriving DecidableEq

/-- One outbound TCP segment as produced by Connection::write: the header
fields that the code sets, plus the payload bytes. -/
structure OutSegment where
  seq : Nat
  ack : Nat
  syn : Bool
  fin : Bool
  rst : Bool
  payload : List Nat
deriving DecidableEq

/-- One parsed inbound TCP segment: the header fields that the code
reads, plus the payload bytes. -/
structure SegmentIn where
  seq : Nat
  ackn : Nat
  ack : Bool
  syn : Bool
  fin : Bool
  wnd : Nat
  data : List Nat
deriving DecidableEq

/-- Connection (src/tcp.rs lines 40-58).  The template TCP header is
represented by the three flag bits the code reads and writes across
calls; sequence and acknowledgment template fields are overwritten at
the start of every write and so live in OutSegment.  The timer map
(BTreeMap of u32 to Instant) is an association list sorted by key, and
srtt is the f64 field modelled over the rationals. -/
structure Connection where
  state : State
  send : SendSequenceSpace
  recv : ReceiveSequenceSpace
  tcpSyn : Bool
  tcpFin : Bool
  tcpRst : Bool
  send_times : List (Nat × Nat)
  srtt : ℚ
  incoming : List Nat
  unacked : List Nat
  closed : Bool
  closed_at : Option Nat
deriving DecidableEq

/-- BTreeMap::insert on the sorted association list. -/
def btreeInsert (k v : Nat) : List (Nat × Nat) → List (Nat × Nat)
  | [] => [(k, v)]
  | (k1, v1) :: rest =>
    if k < k1 then (k, v) :: (k1, v1) :: rest
    else if k = k1 then (k, v) :: rest
    else (k1, v1) :: btreeInsert k v rest

/-- BTreeMap::range(k..).next(): first entry with key at least k. -/
def btreeFirstGe (k : Nat) (m : List (Nat × Nat)) : Option (Nat × Nat) :=
  (m.filter (fun kv => k ≤ kv.1)).head?

/-- Connection::is_rcv_closed (src/tcp.rs lines 61-67). -/
def Connection.is_rcv_closed (c : Connection) : Bool :=
  match c.state with
  | State.TimeWait => true
  | _ => false

/-- Connection::availability (src/tcp.rs lines 69-76).  WRITE is never
set (TODO in the source). -/
def Connection.availability (c : Connection) : Available :=
  { read := c.is_rcv_closed || !c.incoming.isEmpty, write := false }

/-- Connection::write (src/tcp.rs lines 203-284).  Returns the updated
connection and the emitted segment, or none where the Rust code panics:
the slice of the unacked buffer is out of range when the offset
seq - send.una exceeds the buffer length.  The 1500-byte frame minus the
40 header bytes caps the payload at 1460 bytes. -/
def Connection.write (c : Connection) (seq : Nat) (limit : Nat) (now : Nat) :
    Option (Connection × OutSegment) :=
  let ol : Nat × Nat :=
    c.closed_at.elim (wsub seq c.send.una, limit)
      (fun ca => if seq = wadd ca 1 then (0, 0) else (wsub seq c.send.una, limit))
  let offset := ol.1
  let limit := ol.2
  if offset > c.unacked.length then none
  else
    let rest := c.unacked.drop offset
    let max_data := min limit rest.length
    let payload := (rest.take max_data).take 1460
    let next_seq := wadd seq payload.length
    let next_seq := if c.tcpSyn then wadd next_seq 1 else next_seq
    let next_seq := if c.tcpFin then wadd next_seq 1 else next_seq
    some
      ({ c with
          tcpSyn := false
          tcpFin := false
          send := { c.send with
                    nxt := if wrapping_lt c.send.nxt next_seq then next_seq
                           else c.send.nxt }
          send_times := btreeInsert seq now c.send_times },
       { seq := seq, ack := c.recv.nxt, syn := c.tcpSyn, fin := c.tcpFin,
         rst := c.tcpRst, payload := payload })

/-- The segment acceptability check of Connection::on_packet
(src/tcp.rs lines 304-342). -/
def segment_ok (c : Connection) (s : SegmentIn) : Bool :=
  let slen := s.data.length + (if s.fin then 1 else 0) + (if s.syn then 1 else 0)
  let wend := wadd c.recv.nxt c.recv.wnd
  if slen = 0 then
    if c.recv.wnd = 0 then s.seq == c.recv.nxt
    else is_between_wrapped (wsub c.recv.nxt 1) s.seq wend
  else
    if c.recv.wnd = 0 then false
    else
      is_between_wrapped (wsub c.recv.nxt 1) s.seq wend
        || is_between_wrapped (wsub c.recv.nxt 1) (wadd s.seq (slen - 1)) wend

/-- Modelled from the spec: the RFC 793 section 3.3 acceptability table
with the mandated 2^31 wrapping comparison.  Used only to compare the
source acceptability check against the spec. -/
def spec_segment_ok (c : Connection) (s : SegmentIn) : Bool :=
  let slen := s.data.length + (if s.fin then 1 else 0) + (if s.syn then 1 else 0)
  let wend := wadd c.recv.nxt c.recv.wnd
  if slen = 0 then
    if c.recv.wnd = 0 then s.seq == c.recv.nxt
    else spec_is_between_wrapped (wsub c.recv.nxt 1) s.seq wend
  else
    if c.recv.wnd = 0 then false
    else
      spec_is_between_wrapped (wsub c.recv.nxt 1) s.seq wend
        || spec_is_between_wrapped (wsub c.recv.nxt 1) (wadd s.seq (slen - 1)) wend

/-- The BTreeMap::retain loop of the ACK processing (src/tcp.rs lines
381-390): entries whose key lies wrapping-strictly between the old
send.una and ackn are removed, and each removal feeds one RTT sample
(now minus the recorded send instant) into the smoothed estimate
srtt := 0.8 * srtt + (1 - 0.8) * rtt, in ascending key order. -/
def ackRetain (una ackn now : Nat) : List (Nat × Nat) → ℚ → List (Nat × Nat) × ℚ
  | [], srtt => ([], srtt)
  | (seq, sent) :: rest, srtt =>
    if is_between_wrapped una seq ackn then
      ackRetain una ackn now rest
        (4 / 5 * srtt + (1 - 4 / 5) * ((now - sent : Nat) : ℚ))
    else
      let r := ackRetain una ackn now rest srtt
      ((seq, sent) :: r.1, r.2)

/-- The SynRcvd block of Connection::on_packet (src/tcp.rs lines
357-367): on an in-range acknowledgment the state becomes Estab. -/
def synRcvdStep (c : Connection) (ackn : Nat) : Connection :=
  match c.state with
  | State.SynRcvd =>
    if is_between_wrapped (wsub c.send.una 1) ackn (wadd c.send.nxt 1) then
      { c with state := State.Estab }
    else c
  | _ => c

/-- The Estab/FinWait1/FinWait2 ACK-processing block of
Connection::on_packet (src/tcp.rs lines 369-397): drain acknowledged
bytes from the unacked buffer (adjusting for the virtual SYN byte when
send.una still equals iss), run the timer retain loop, then advance
send.una to ackn.  The drain and retain run only when the unacked
buffer is non-empty. -/
def ackStep (c : Connection) (ackn now : Nat) : Connection :=
  match c.state with
  | State.Estab | State.FinWait1 | State.FinWait2 =>
    if is_between_wrapped c.send.una ackn (wadd c.send.nxt 1) then
      let c1 :=
        if !c.unacked.isEmpty then
          let data_start := if c.send.una = c.send.iss then wadd c.send.una 1
                            else c.send.una
          let acked_data_end := min (wsub ackn data_start) c.unacked.length
          let ts := ackRetain c.send.una ackn now c.send_times c.srtt
          { c with
              unacked := c.unacked.drop acked_data_end
              send_times := ts.1
              srtt := ts.2 }
        else c
      { c1 with send := { c1.send with una := ackn } }
    else c
  | _ => c

/-- The FinWait1 to FinWait2 transition of Connection::on_packet
(src/tcp.rs lines 399-403), taken once the acknowledgment has reached
iss + 2. -/
def finWaitStep (c : Connection) : Connection :=
  match c.state with
  | State.FinWait1 =>
    if c.send.una = (c.send.iss + 2) % u32Mod then { c with state := State.FinWait2 }
    else c
  | _ => c

/-- The payload-integration block of Connection::on_packet (src/tcp.rs
lines 405-420): in a synchronized data state, append the part of the
payload at or beyond recv.nxt to the incoming buffer (the offset is
forced to 0 when it exceeds the payload length: the retransmitted-FIN
fallback), set recv.nxt to seq plus the payload length, and emit a bare
ACK. -/
def payloadStep (c : Connection) (s : SegmentIn) (now : Nat) :
    Option (Connection × List OutSegment) :=
  if !s.data.isEmpty then
    match c.state with
    | State.Estab | State.FinWait1 | State.FinWait2 =>
      let unread0 := wsub c.recv.nxt s.seq
      let unread := if unread0 > s.data.length then 0 else unread0
      let c1 := { c with
                  incoming := c.incoming ++ s.data.drop unread
                  recv := { c.recv with nxt := wadd s.seq s.data.length } }
      (c1.write c1.send.nxt 0 now).map (fun p => (p.1, [p.2]))
    | _ => some (c, [])
  else some (c, [])

/-- The FIN block of Connection::on_packet (src/tcp.rs lines 422-432):
in FinWait2 advance recv.nxt past the FIN, ACK it and enter TimeWait;
in every other state the code hits unimplemented! and panics (none). -/
def finStep (c : Connection) (s : SegmentIn) (now : Nat) (outs : List OutSegment) :
    Option (Connection × List OutSegment × Available) :=
  if s.fin then
    match c.state with
    | State.FinWait2 =>
      let c1 := { c with recv := { c.recv with nxt := wadd c.recv.nxt 1 } }
      (c1.write c1.send.nxt 0 now).map (fun p =>
        (({ p.1 with state := State.TimeWait } : Connection),
         outs ++ [p.2],
         ({ p.1 with state := State.TimeWait } : Connection).availability))
    | _ => none
  else some (c, outs, c.availability)

/-- Connection::on_packet (src/tcp.rs lines 297-435).  Returns the
updated connection, the emitted segments in order, and the availability
bitset; none stands for a panic. -/
def on_packet (c : Connection) (s : SegmentIn) (now : Nat) :
    Option (Connection × List OutSegment × Available) :=
  if !segment_ok c s then
    (c.write c.send.nxt 0 now).map (fun p => (p.1, [p.2], p.1.availability))
  else if !s.ack then
    let c1 := if s.syn then { c with recv := { c.recv with nxt := wadd s.seq 1 } }
              else c
    some (c1, [], c1.availability)
  else
    let c1 := synRcvdStep c s.ackn
    let c2 := ackStep c1 s.ackn now
    let c3 := finWaitStep c2
    (payloadStep c3 s now).bind (fun p => finStep p.1 s now p.2)

/-- The Connection record Connection::accept builds before emitting the
SYN+ACK (src/tcp.rs lines 145-198): iss = 0, both send pointers at iss,
send window 1024, receive space seeded from the segment, and the
template SYN (and ACK) flags already set for the upcoming write. -/
def initialConn (s : SegmentIn) : Connection :=
  { state := State.SynRcvd
    send := { iss := 0, una := 0, nxt := 0, wnd := 1024, up := false,
              wl1 := 0, wl2 := 0 }
    recv := { irs := s.seq, nxt := (s.seq + 1) % u32Mod, wnd := s.wnd,
              up := false }
    tcpSyn := true
    tcpFin := false
    tcpRst := false
    send_times := []
    srtt := 60
    incoming := []
    unacked := []
    closed := false
    closed_at := none }

/-- Connection::accept (src/tcp.rs lines 133-201).  Returns the freshly
constructed connection (if any) and the emitted segments.  The only
precondition checked by the code is the SYN flag. -/
def accept (s : SegmentIn) (now : Nat) : Option Connection × List OutSegment :=
  if !s.syn then (none, [])
  else
    match (initialConn s).write (initialConn s).send.nxt 0 now with
    | none => (none, [])
    | some (c1, seg) => (some c1, [seg])

/-- Connection::on_tick (src/tcp.rs lines 437-493).  none stands for a
panic: the u32 subtractions unacked.len - nunacked and
send.wnd - nunacked underflow (a debug-build panic) when nunacked
exceeds the minuend.  Times are in whole seconds, so the
one-second retransmit threshold is the comparison waited > 1. -/
def on_tick (c : Connection) (now : Nat) : Option (Connection × List OutSegment) :=
  let nunacked := wsub (c.closed_at.getD c.send.nxt) c.send.una
  if c.unacked.length < nunacked then none
  else
    let nunsent := c.unacked.length - nunacked
    let waited_for := (btreeFirstGe c.send.una c.send_times).map (fun kv => now - kv.2)
    let should_retransmit :=
      match waited_for with
      | some w => decide (w > 1) && decide ((w : ℚ) > 3 / 2 * c.srtt)
      | none => false
    if should_retransmit then
      let resend := min c.unacked.length c.send.wnd
      let c1 :=
        if resend < c.send.wnd && c.closed then
          { c with tcpFin := true,
                   closed_at := some (wadd c.send.una c.unacked.length) }
        else c
      match c1.write c1.send.una resend now with
      | none => none
      | some (c2, seg) =>
        some ({ c2 with send := { c2.send with nxt := wadd c2.send.una resend } },
              [seg])
    else
      if nunsent = 0 && c.closed_at.isSome then some (c, [])
      else if c.send.wnd < nunacked then none
      else
        let allowed := c.send.wnd - nunacked
        if allowed = 0 then some (c, [])
        else
          let tosend := min nunsent allowed
          let c1 :=
            if tosend < allowed && c.closed && c.closed_at.isNone then
              { c with tcpFin := true,
                       closed_at := some (wadd c.send.nxt nunsent) }
            else c
          match c1.write c1.send.nxt tosend now with
          | none => none
          | some (c2, seg) => some (c2, [seg])

/-- Connection::close (src/tcp.rs lines 495-497). -/
def Connection.close (c : Connection) : Connection := { c with closed := true }

/-- Rust slice copy_from_slice: replaces the destination when the two
lengths agree, panics (none) otherwise. -/
def copy_from_slice (dst src : List Nat) : Option (List Nat) :=
  if dst.length = src.length then some src else none

/-- The body of TcpStream::read on an existing connection (src/lib.rs
lines 188-215).  The incoming VecDeque is given by its two as_slices
halves.  Returns the byte count, the buffer afterwards and the incoming
buffer afterwards; none stands for a panic inside copy_from_slice. -/
def stream_read (rcvClosed : Bool) (head tail : List Nat) (buf : List Nat) :
    Option (Nat × List Nat × List Nat) :=
  if rcvClosed && (head ++ tail).isEmpty then some (0, buf, head ++ tail)
  else if !(head ++ tail).isEmpty then
    let hread := min buf.length head.length
    match copy_from_slice buf (head.take hread) with
    | none => none
    | some buf1 =>
      let tread := min (buf.length - hread) tail.length
      match copy_from_slice buf1 (tail.take tread) with
      | none => none
      | some buf2 =>
        some (hread + tread, buf2, (head ++ tail).drop (hread + tread))
  else some (0, buf, head ++ tail)

/-- The Drop implementation of TcpStream (src/lib.rs lines 178-186): it
removes the connection from the table and, when one was present, hits
unimplemented! and panics (none).  The table is an association list
from quad keys to connections. -/
def stream_drop (connections : List (Nat × Connection)) (q : Nat) :
    Option (List (Nat × Connection)) :=
  if connections.any (fun kv => kv.1 == q) then none else some connections

/-- A baseline established connection used by the concrete theorems:
handshake done (iss 0, SYN acknowledged), peer initial sequence 100,
both windows 10, nothing buffered. -/
def connEstab : Connection :=
  { state := State.Estab
    send := { iss := 0, una := 1, nxt := 1, wnd := 10, up := false, wl1 := 0, wl2 := 0 }
    recv := { irs := 100, nxt := 101, wnd := 10, up := false }
    tcpSyn := false
    tcpFin := false
    tcpRst := false
    send_times := []
    srtt := 60
    incoming := []
    unacked := []
    closed := false
    closed_at := none }

/-- The connection with the stale receive window used by the C2 and C9
concrete inputs: recv.nxt is 1000, so a segment at sequence 100 is far
behind the window. -/
def connStale : Connection :=
  { connEstab with recv := { irs := 0, nxt := 1000, wnd := 10, up := false } }

/-- The connection freshly constructed by Connection::accept from a SYN
carrying sequence number s.seq and window s.wnd, as it stands right
after the SYN+ACK emission at instant now: the virtual SYN byte makes
send.nxt = iss + 1 = 1 while send.una = iss = 0 and unacked is empty. -/
def freshConn (s : SegmentIn) (now : Nat) : Connection :=
  { state := State.SynRcvd
    send := { iss := 0, una := 0, nxt := 1, wnd := 1024, up := false,
              wl1 := 0, wl2 := 0 }
    recv := { irs := s.seq, nxt := (s.seq + 1) % u32Mod, wnd := s.wnd, up := false }
    tcpSyn := false
    tcpFin := false
    tcpRst := false
    send_times := [(0, now)]
    srtt := 60
    incoming := []
    unacked := []
    closed := false
    closed_at := none }

/-- A duplicate zero-length segment at sequence recv.nxt - 1: judged
unacceptable by the source acceptability check. -/
def segDup : SegmentIn :=
  { seq := 100, ackn := 0, ack := true, syn := false, fin := false,
    wnd := 0, data := [] }

/-- An in-window FIN segment for connEstab. -/
def segFinEstab : SegmentIn :=
  { seq := 101, ackn := 1, ack := true, syn := false, fin := true,
    wnd := 0, data := [] }

/-- A zero-length segment far outside connStale's receive window. -/
def segStaleEmpty : SegmentIn :=
  { seq := 100, ackn := 0, ack := false, syn := false, fin := false,
    wnd := 0, data := [] }

/-- A stale five-byte data segment far behind connStale's recv.nxt. -/
def segStaleData : SegmentIn :=
  { seq := 100, ackn := 1, ack := true, syn := false, fin := false,
    wnd := 0, data := [7, 8, 9, 10, 11] }

/-- The connection connStale after on_packet integrates segStaleData. -/
def connStaleRes : Connection :=
  { connStale with
      incoming := [7, 8, 9, 10, 11]
      recv := { irs := 0, nxt := 105, wnd := 10, up := false }
      send_times := [(1, 0)] }

/-- connEstab with the peer sequence space at 100. -/
def connRecv100 : Connection :=
  { connEstab with recv := { irs := 99, nxt := 100, wnd := 10, up := false } }

/-- An established connection with five unacknowledged in-flight bytes
sent at sequence 1 at instant 0, its timer entry still pending. -/
def connC7 : Connection :=
  { connRecv100 with
      send := { iss := 0, una := 1, nxt := 6, wnd := 10, up := false,
                wl1 := 0, wl2 := 0 }
      send_times := [(1, 0)]
      unacked := [10, 11, 12, 13, 14] }

/-- connC7 after the ACK of all five bytes is processed. -/
def connC7res : Connection :=
  { connC7 with
      unacked := []
      send := { iss := 0, una := 6, nxt := 6, wnd := 10, up := false,
                wl1 := 0, wl2 := 0 } }

/-- An acknowledgment of everything up to sequence 6 for connC7. -/
def segAck6 : SegmentIn :=
  { seq := 100, ackn := 6, ack := true, syn := false, fin := false,
    wnd := 0, data := [] }

/-- A two-byte in-window data segment for connRecv100. -/
def segTwo : SegmentIn :=
  { seq := 100, ackn := 1, ack := true, syn := false, fin := false,
    wnd := 0, data := [1, 2] }

/-- connRecv100 after on_packet integrates segTwo. -/
def connC9res : Connection :=
  { connRecv100 with
      incoming := [1, 2]
      recv := { irs := 99, nxt := 102, wnd := 10, up := false }
      send_times := [(1, 0)] }

/-- The bare ACK emitted while integrating segTwo. -/
def outBareAck102 : OutSegment :=
  { seq := 1, ack := 102, syn := false, fin := false, rst := false, payload := [] }

/-- A plain SYN segment (ACK clear) from the peer. -/
def segSyn : SegmentIn :=
  { seq := 500, ackn := 0, ack := false, syn := true, fin := false,
    wnd := 2048, data := [] }

/-- A SYN segment with the ACK flag also set. -/
def segSynAck : SegmentIn :=
  { seq := 500, ackn := 77, ack := true, syn := true, fin := false,
    wnd := 1024, data := [] }

lemma wsub_self (a : Nat) : wsub a a = 0 := by
  unfold wsub u32Mod
  omega

lemma wrapping_lt_wadd_zero (a : Nat) : wrapping_lt a (wadd a 0) = false := by
  simp only [wrapping_lt, wadd, wsub, u32Mod, decide_eq_false_iff_not, Nat.not_lt]
  omega

lemma wsub_wadd_le (a b len : Nat) (h : wsub b a ≤ len) (hM : len < u32Mod) :
    wsub (wadd a len) b ≤ len := by
  unfold wsub wadd u32Mod at *
  omega

lemma wsub_wadd_one (x y k : Nat) (h : wsub x y ≤ k) (hk : k + 1 < u32Mod) :
    wsub (wadd x 1) y ≤ k + 1 := by
  unfold wsub wadd u32Mod at *
  omega

lemma is_between_wrapped_self_left (a e : Nat) :
    is_between_wrapped a a e = false := by
  simp only [is_between_wrapped, wrapping_lt, wsub_self, Bool.and_eq_false_iff,
    decide_eq_false_iff_not, Nat.not_lt]
  left
  omega

/-- The retain loop removes exactly the entries whose key lies
wrapping-strictly between una and ackn, and folds one EWMA update over
the removed entries in order. -/
lemma ackRetain_spec (una ackn now : Nat) (l : List (Nat × Nat)) (srtt : ℚ) :
    ackRetain una ackn now l srtt =
      (l.filter (fun kv => !is_between_wrapped una kv.1 ackn),
       (l.filter (fun kv => is_between_wrapped una kv.1 ackn)).foldl
         (fun sr kv => 4 / 5 * sr + (1 - 4 / 5) * ((now - kv.2 : Nat) : ℚ)) srtt) := by
  induction l generalizing srtt with
  | nil => rfl
  | cons kv rest ih =>
    obtain ⟨seq, sent⟩ := kv
    by_cases h : is_between_wrapped una seq ackn = true
    · simp [ackRetain, h, ih]
    · simp only [Bool.not_eq_true] at h
      simp [ackRetain, h, ih]

lemma write_preserves (c : Connection) (q l n : Nat) (c1 : Connection)
    (o : OutSegment) (h : c.write q l n = some (c1, o)) :
    c1.recv = c.recv ∧ c1.state = c.state ∧ c1.incoming = c.incoming ∧
      c1.unacked = c.unacked ∧ c1.send.una = c.send.una := by
  simp only [Connection.write] at h
  rcases hca : c.closed_at with _ | ca <;> rw [hca] at h <;>
    simp only [Option.elim_none, Option.elim_some] at h <;>
    repeat' split at h
  all_goals
    first
      | exact Option.noConfusion h
      | (simp only [Option.some.injEq, Prod.mk.injEq] at h
         obtain ⟨h1, _⟩ := h
         subst h1
         exact ⟨rfl, rfl, rfl, rfl, rfl⟩)

lemma synRcvdStep_recv (c : Connection) (a : Nat) :
    (synRcvdStep c a).recv = c.recv := by
  unfold synRcvdStep
  repeat' split
  all_goals rfl

lemma ackStep_recv (c : Connection) (a n : Nat) :
    (ackStep c a n).recv = c.recv := by
  unfold ackStep
  repeat' split
  all_goals rfl

lemma finWaitStep_recv (c : Connection) : (finWaitStep c).recv = c.recv := by
  unfold finWaitStep
  repeat' split
  all_goals rfl

lemma finWaitStep_fields (c : Connection) :
    (finWaitStep c).send = c.send ∧ (finWaitStep c).send_times = c.send_times ∧
      (finWaitStep c).srtt = c.srtt := by
  unfold finWaitStep
  repeat' split
  all_goals exact ⟨rfl, rfl, rfl⟩

lemma payloadStep_recv_nxt (c : Connection) (s : SegmentIn) (now : Nat)
    (c1 : Connection) (outs : List OutSegment)
    (h : payloadStep c s now = some (c1, outs)) :
    c1.recv.nxt = c.recv.nxt ∨
      (s.data ≠ [] ∧ c1.recv.nxt = wadd s.seq s.data.length) := by
  by_cases hd : s.data.isEmpty = true
  · left
    unfold payloadStep at h
    rw [hd] at h
    simp only [Bool.not_true, Bool.false_eq_true, if_false, Option.some.injEq,
      Prod.mk.injEq] at h
    obtain ⟨h1, _⟩ := h
    subst h1
    rfl
  · have hdata : s.data ≠ [] := by
      simpa [List.isEmpty_iff] using hd
    unfold payloadStep at h
    simp only [Bool.not_eq_true] at hd
    rw [hd] at h
    simp only [Bool.not_false, if_true] at h
    cases hstate : c.state <;> rw [hstate] at h
    all_goals
      first
        | (simp only [Option.some.injEq, Prod.mk.injEq] at h
           obtain ⟨h1, _⟩ := h
           subst h1
           exact Or.inl rfl)
        | (rw [Option.map_eq_some'] at h
           obtain ⟨⟨pc, po⟩, hw, hp⟩ := h
           simp only [Prod.mk.injEq] at hp
           obtain ⟨h1, _⟩ := hp
           subst h1
           right
           refine ⟨hdata, ?_⟩
           have hpres := write_preserves _ _ _ _ _ _ hw
           rw [hpres.1])

lemma finStep_false (c : Connection) (s : SegmentIn) (now : Nat)
    (outs : List OutSegment) (hfin : s.fin = false) :
    finStep c s now outs = some (c, outs, c.availability) := by
  unfold finStep
  rw [hfin]
  rfl

lemma finStep_recv_nxt (c : Connection) (s : SegmentIn) (now : Nat)
    (outs outs1 : List OutSegment) (c1 : Connection) (av : Available)
    (h : finStep c s now outs = some (c1, outs1, av)) :
    c1.recv.nxt = c.recv.nxt ∨ c1.recv.nxt = wadd c.recv.nxt 1 := by
  by_cases hf : s.fin = true
  · unfold finStep at h
    rw [hf] at h
    simp only [if_true] at h
    cases hstate : c.state <;> rw [hstate] at h
    all_goals
      first
        | exact Option.noConfusion h
        | (rw [Option.map_eq_some'] at h
           obtain ⟨⟨pc, po⟩, hw, hp⟩ := h
           simp only [Prod.mk.injEq] at hp
           obtain ⟨h1, _⟩ := hp
           subst h1
           right
           have hpres := write_preserves _ _ _ _ _ _ hw
           rw [show ({ pc with state := State.TimeWait } : Connection).recv = pc.recv from rfl,
             hpres.1])
  · simp only [Bool.not_eq_true] at hf
    rw [finStep_false c s now outs hf] at h
    simp only [Option.some.injEq, Prod.mk.injEq] at h
    obtain ⟨h1, _⟩ := h
    subst h1
    exact Or.inl rfl

lemma synRcvdStep_sync (c : Connection) (a : Nat)
    (hstate : c.state = State.Estab ∨ c.state = State.FinWait1 ∨
      c.state = State.FinWait2) :
    synRcvdStep c a = c := by
  rcases hstate with h | h | h <;> (unfold synRcvdStep; rw [h])

lemma ackStep_sync (c : Connection) (ackn now : Nat)
    (hstate : c.state = State.Estab ∨ c.state = State.FinWait1 ∨
      c.state = State.FinWait2)
    (hbet : is_between_wrapped c.send.una ackn (wadd c.send.nxt 1) = true)
    (hne : c.unacked ≠ []) :
    ackStep c ackn now =
      { c with
          unacked := c.unacked.drop
            (min (wsub ackn (if c.send.una = c.send.iss then wadd c.send.una 1
                             else c.send.una)) c.unacked.length)
          send_times := (ackRetain c.send.una ackn now c.send_times c.srtt).1
          srtt := (ackRetain c.send.una ackn now c.send_times c.srtt).2
          send := { c.send with una := ackn } } := by
  have hne2 : c.unacked.isEmpty = false := by
    simpa [List.isEmpty_iff] using hne
  unfold ackStep
  rcases hstate with h | h | h <;> rw [h] <;>
    simp only [hbet, if_true, hne2, Bool.not_false]

lemma payloadStep_no_data (c : Connection) (s : SegmentIn) (now : Nat)
    (hdata : s.data = []) : payloadStep c s now = some (c, []) := by
  unfold payloadStep
  rw [hdata]
  rfl

/-- An unacceptable segment makes on_packet emit one bare ACK through
Connection::write: everything except the timer map is unchanged, and
the timer map gains an entry at key send.nxt.  The hypotheses mirror
the Rust state at that point: the template SYN/FIN/RST flags are clear,
and the in-flight count does not exceed the unacked buffer (otherwise
the write itself panics on an out-of-range slice). -/
lemma write_bare_ack (c : Connection) (now : Nat)
    (hsyn : c.tcpSyn = false) (hfin : c.tcpFin = false) (hrst : c.tcpRst = false)
    (hoff : wsub c.send.nxt c.send.una ≤ c.unacked.length) :
    c.write c.send.nxt 0 now =
      some ({ c with send_times := btreeInsert c.send.nxt now c.send_times },
            { seq := c.send.nxt, ack := c.recv.nxt, syn := false, fin := false,
              rst := false, payload := [] }) := by
  simp only [Connection.write]
  rcases hca : c.closed_at with _ | ca <;>
    simp only [Option.elim_none, Option.elim_some]
  · rw [if_neg (Nat.not_lt.mpr hoff)]
    simp only [hsyn, hfin, hrst, Bool.false_eq_true, if_false, Nat.zero_min,
      List.take_zero, List.take_nil, List.length_nil, wrapping_lt_wadd_zero]
  · by_cases hq : c.send.nxt = wadd ca 1
    · rw [if_pos hq]
      rw [if_neg (Nat.not_lt.mpr (Nat.zero_le _))]
      simp only [hsyn, hfin, hrst, Bool.false_eq_true, if_false, Nat.zero_min,
        List.take_zero, List.take_nil, List.length_nil, wrapping_lt_wadd_zero]
    · rw [if_neg hq, if_neg (Nat.not_lt.mpr hoff)]
      simp only [hsyn, hfin, hrst, Bool.false_eq_true, if_false, Nat.zero_min,
        List.take_zero, List.take_nil, List.length_nil, wrapping_lt_wadd_zero]

/-- on_tick panics (none) as soon as the in-flight count exceeds the
unacked buffer length: the u32 subtraction underflows. -/
lemma on_tick_underflow (c : Connection) (now : Nat)
    (h : c.unacked.length < wsub (c.closed_at.getD c.send.nxt) c.send.una) :
    on_tick c now = none := by
  unfold on_tick
  simp only []
  rw [if_pos h]

/-- The SYN+ACK emission inside Connection::accept: writing from the
initial record yields the fresh connection and the SYN+ACK segment. -/
lemma write_synack (s : SegmentIn) (now : Nat) :
    (initialConn s).write 0 0 now =
      some (freshConn s now,
        { seq := 0, ack := (s.seq + 1) % u32Mod, syn := true, fin := false,
          rst := false, payload := [] }) := by
  have e1 : wsub 0 0 = 0 := by norm_num [wsub, u32Mod]
  have e2 : wadd 0 1 = 1 := by norm_num [wadd, u32Mod]
  have e3 : wadd 0 0 = 0 := by norm_num [wadd, u32Mod]
  have e4 : wrapping_lt 0 1 = true := by norm_num [wrapping_lt, wsub, u32Mod]
  simp only [Connection.write, initialConn, freshConn, Option.elim_none,
    e1, e2, e3, e4, List.length_nil, List.drop_zero, Nat.zero_min,
    List.take_zero, List.take_nil, gt_iff_lt, lt_self_iff_false, if_false,
    if_true, btreeInsert, Bool.false_eq_true, eq_self_iff_true]

/-- Connection::accept on a SYN builds the fresh connection and emits
one SYN+ACK carrying sequence 0 and acknowledging seq + 1. -/
lemma accept_syn (s : SegmentIn) (now : Nat) (hsyn : s.syn = true) :
    accept s now =
      (some (freshConn s now),
       [{ seq := 0, ack := (s.seq + 1) % u32Mod, syn := true, fin := false,
          rst := false, payload := [] }]) := by
  unfold accept
  rw [hsyn]
  have hnxt : (initialConn s).send.nxt = 0 := rfl
  rw [Bool.not_true, if_neg Bool.false_ne_true, hnxt, write_synack]


/-- C1: the claim says wrapping_lt compares the wrapped difference
against 2^31 (1 shl 31).  The code compares against Rust 2 XOR 31 = 29,
so at lhs = 100, rhs = 0 (wrapped difference 100) it returns true while
the spec-mandated comparison returns false. -/
theorem C1_wrapping_lt_xor_bug :
    wrapping_lt 100 0 = true ∧ wsub 100 0 = 100 ∧
      spec_wrapping_lt 100 0 = false := by decide

/-- C2: the claim says on_packet judges acceptability exactly per the
RFC 793 table with wrapping-strict comparisons.  Through the 29-bug in
wrapping_lt, the code accepts a zero-length segment at sequence 100
against recv.nxt = 1000, recv.wnd = 10, which the RFC table rejects. -/
theorem C2_acceptability_xor_bug :
    segment_ok connStale segStaleEmpty = true ∧
      spec_segment_ok connStale segStaleEmpty = false := by decide

/-- C3 counterexample: an unacceptable segment does mutate the
connection: the bare-ACK write inserts a timer entry at key send.nxt
into the previously empty retransmission timer map. -/
theorem C3_counterexample :
    segment_ok connEstab segDup = false ∧
    on_packet connEstab segDup 5 =
      some ({ connEstab with send_times := [(1, 5)] },
            [{ seq := 1, ack := 101, syn := false, fin := false, rst := false,
               payload := [] }],
            { read := false, write := false }) ∧
    connEstab.send_times = [] := by decide

/-- C3 (amended): for every segment judged unacceptable, on_packet
emits exactly one bare ACK (sequence send.nxt, acknowledging recv.nxt,
no flags, no payload) and leaves the state, both sequence spaces, the
incoming and unacked buffers unchanged; the retransmission timer map is
the one exception: it gains an entry at key send.nxt recording the send
instant.  The hypotheses mirror the connection state at that point in
the code: clear template flags, and an in-flight count not exceeding
the unacked buffer (otherwise the write panics). -/
theorem C3_amended_bare_ack (c : Connection) (s : SegmentIn) (now : Nat)
    (hok : segment_ok c s = false)
    (hsyn : c.tcpSyn = false) (hfin : c.tcpFin = false) (hrst : c.tcpRst = false)
    (hoff : wsub c.send.nxt c.send.una ≤ c.unacked.length) :
    on_packet c s now =
      some ({ c with send_times := btreeInsert c.send.nxt now c.send_times },
            [{ seq := c.send.nxt, ack := c.recv.nxt, syn := false, fin := false,
               rst := false, payload := [] }],
            c.availability) := by
  simp only [on_packet, hok, Bool.not_false, eq_self_iff_true, if_true]
  rw [write_bare_ack c now hsyn hfin hrst hoff]
  rfl

/-- C3 witness: the amended theorem applied to the concrete connection
connEstab and the unacceptable duplicate segment segDup. -/
theorem C3_witness :
    segment_ok connEstab segDup = false ∧
    on_packet connEstab segDup 5 =
      some ({ connEstab with
                send_times := btreeInsert connEstab.send.nxt 5 connEstab.send_times },
            [{ seq := connEstab.send.nxt, ack := connEstab.recv.nxt, syn := false,
               fin := false, rst := false, payload := [] }],
            connEstab.availability) :=
  ⟨by decide, C3_amended_bare_ack connEstab segDup 5 (by decide) rfl rfl rfl (by decide)⟩

/-- C4: the claim says read copies min(buf.len, incoming.len) bytes into
buf and drains them.  The code calls copy_from_slice with the whole
buffer as destination, which panics on a length mismatch: with a
one-byte buffer and a one-byte incoming queue the second copy pairs a
length-1 destination with a length-0 source and panics.  The EOF branch
of the claim does hold. -/
theorem C4_read_copy_panics :
    stream_read false [65] [] [0] = none ∧
      stream_read true [] [] [0] = some (0, [0], []) := by decide

/-- C5: the claim says a FIN outside FinWait2 aborts the connection
without crashing the process.  The code reaches unimplemented! and
panics: on the established connection connEstab the acceptable FIN
segment segFinEstab drives on_packet into the panicking arm. -/
theorem C5_fin_in_estab_panics :
    connEstab.state = State.Estab ∧ segment_ok connEstab segFinEstab = true ∧
      on_packet connEstab segFinEstab 0 = none := by decide

/-- C6: the claim says dropping the last Stream reference marks the
connection closed and leaves it in the table without panicking.  The
Drop implementation instead removes the connection from the table and
hits unimplemented!, panicking whenever the connection is present; with
the quad absent it returns with the table unchanged. -/
theorem C6_drop_removes_and_panics :
    stream_drop [(7, connEstab)] 7 = none ∧
      stream_drop [(7, connEstab)] 8 = some [(7, connEstab)] := by decide

/-- C7 counterexample: the claim says every timer entry with key in
[old send.una, ackn) is removed with one RTT sample each.  On connC7
(send.una = 1, one timer entry at key 1, five in-flight bytes) the ACK
of everything up to 6 drains the buffer and advances una to 6, yet the
entry at key 1 = old send.una survives the retain loop (the code tests
the open interval) and no RTT sample is taken: srtt stays 60. -/
theorem C7_counterexample :
    on_packet connC7 segAck6 9 = some (connC7res, [], { read := false, write := false }) ∧
    connC7res.send.una = 6 ∧ connC7res.send_times = [(1, 0)] ∧
    connC7res.srtt = connC7.srtt := by decide

/-- C7 (amended): in Estab, FinWait1 or FinWait2, on an acceptable
segment whose in-range acknowledgment is processed with a non-empty
unacked buffer (and no payload, FIN clear), the timer-map entries
removed are exactly those whose key lies wrapping-strictly between the
old send.una and ackn - the open interval, so the entry at key
old send.una itself survives - and each removal feeds exactly one RTT
sample through srtt := 0.8 * srtt + 0.2 * sample, in key order;
send.una then advances to ackn. -/
theorem C7_amended_ack_retain (c : Connection) (s : SegmentIn) (now : Nat)
    (hstate : c.state = State.Estab ∨ c.state = State.FinWait1 ∨
      c.state = State.FinWait2)
    (hok : segment_ok c s = true) (hack : s.ack = true)
    (hbet : is_between_wrapped c.send.una s.ackn (wadd c.send.nxt 1) = true)
    (hne : c.unacked ≠ []) (hdata : s.data = []) (hfin : s.fin = false) :
    ∃ c1 av, on_packet c s now = some (c1, [], av) ∧
      c1.send_times =
        c.send_times.filter (fun kv => !is_between_wrapped c.send.una kv.1 s.ackn) ∧
      c1.srtt =
        (c.send_times.filter (fun kv => is_between_wrapped c.send.una kv.1 s.ackn)).foldl
          (fun sr kv => 4 / 5 * sr + (1 - 4 / 5) * ((now - kv.2 : Nat) : ℚ)) c.srtt ∧
      c1.send.una = s.ackn ∧
      ∀ t, (c.send.una, t) ∈ c.send_times → (c.send.una, t) ∈ c1.send_times := by
  have hsyn2 := synRcvdStep_sync c s.ackn hstate
  have hR := ackStep_sync c s.ackn now hstate hbet hne
  have hfw := finWaitStep_fields (ackStep c s.ackn now)
  have hret := ackRetain_spec c.send.una s.ackn now c.send_times c.srtt
  have hst : (finWaitStep (ackStep c s.ackn now)).send_times =
      c.send_times.filter (fun kv => !is_between_wrapped c.send.una kv.1 s.ackn) := by
    rw [hfw.2.1, hR, hret]
  refine ⟨finWaitStep (ackStep c s.ackn now),
    (finWaitStep (ackStep c s.ackn now)).availability, ?_, hst, ?_, ?_, ?_⟩
  · simp only [on_packet, hok, hack, Bool.not_true, Bool.false_eq_true, if_false]
    rw [hsyn2, payloadStep_no_data _ s now hdata]
    exact finStep_false _ s now _ hfin
  · rw [hfw.2.2, hR, hret]
  · rw [show (finWaitStep (ackStep c s.ackn now)).send.una =
        (ackStep c s.ackn now).send.una from by rw [hfw.1], hR]
  · intro t ht
    rw [hst]
    refine List.mem_filter.mpr ⟨ht, ?_⟩
    simp [is_between_wrapped_self_left]

/-- C7 witness: the amended theorem applied to connC7 and the full
acknowledgment segAck6 at instant 9. -/
theorem C7_witness :
    segment_ok connC7 segAck6 = true ∧ connC7.unacked ≠ [] ∧
    (∃ c1 av, on_packet connC7 segAck6 9 = some (c1, [], av) ∧
      c1.send_times =
        connC7.send_times.filter
          (fun kv => !is_between_wrapped connC7.send.una kv.1 segAck6.ackn) ∧
      c1.srtt =
        (connC7.send_times.filter
          (fun kv => is_between_wrapped connC7.send.una kv.1 segAck6.ackn)).foldl
          (fun sr kv => 4 / 5 * sr + (1 - 4 / 5) * ((9 - kv.2 : Nat) : ℚ)) connC7.srtt ∧
      c1.send.una = segAck6.ackn ∧
      ∀ t, (connC7.send.una, t) ∈ connC7.send_times →
        (connC7.send.una, t) ∈ c1.send_times) :=
  ⟨by decide, by decide,
   C7_amended_ack_retain connC7 segAck6 9 (Or.inl rfl) (by decide) rfl (by decide)
     (by decide) rfl rfl⟩

/-- C8 counterexample: the claim says a segment with ACK set produces no
connection.  Connection::accept never examines the ACK flag: the
SYN+ACK segment segSynAck produces a connection. -/
theorem C8_counterexample :
    segSynAck.ack = true ∧ (accept segSynAck 0).1.isSome = true := by decide

/-- C8 (amended): accept creates a connection exactly when the SYN flag
is set - the ACK flag is not examined - emitting one SYN+ACK in that
case; when SYN is clear it returns no connection and emits nothing. -/
theorem C8_amended_syn_only (s : SegmentIn) (now : Nat) :
    (accept s now).1.isSome = s.syn ∧
    (accept s now).2 =
      (if s.syn then
        [{ seq := 0, ack := (s.seq + 1) % u32Mod, syn := true, fin := false,
           rst := false, payload := [] }]
       else []) := by
  by_cases hs : s.syn = true
  · rw [accept_syn s now hs, hs]
    exact ⟨rfl, rfl⟩
  · simp only [Bool.not_eq_true] at hs
    unfold accept
    rw [hs]
    exact ⟨rfl, rfl⟩

/-- C9 counterexample: the claim says recv.nxt never moves back.  On
connStale (recv.nxt = 1000) the stale segment segStaleData at sequence
100 passes the buggy acceptability check, its payload integration takes
the retransmitted-FIN fallback, and recv.nxt is reset to 105: the
wrapped difference new - old is at least 2^31, a move backwards. -/
theorem C9_counterexample :
    on_packet connStale segStaleData 0 =
      some (connStaleRes,
            [{ seq := 1, ack := 105, syn := false, fin := false, rst := false,
               payload := [] }],
            { read := true, write := false }) ∧
    connStale.recv.nxt = 1000 ∧ connStaleRes.recv.nxt = 105 ∧
    2 ^ 31 ≤ wsub connStaleRes.recv.nxt connStale.recv.nxt := by decide

/-- C9 (amended): recv.nxt only advances - the wrapped difference
new recv.nxt - old recv.nxt stays below 2^31 - provided the segment
carries no SYN and the payload-integration overlap recv.nxt - seg.seq
does not exceed the payload length (the condition under which the code
takes the normal path rather than the retransmitted-FIN fallback that
resets recv.nxt to seg.seq + payload.len). -/
theorem C9_amended_recv_nxt_advance (c : Connection) (s : SegmentIn) (now : Nat)
    (hsyn : s.syn = false)
    (hoverlap : s.data = [] ∨ wsub c.recv.nxt s.seq ≤ s.data.length)
    (hlen : s.data.length + 1 < 2 ^ 31) :
    ∀ c1 outs av, on_packet c s now = some (c1, outs, av) →
      wsub c1.recv.nxt c.recv.nxt < 2 ^ 31 := by
  have h31 : (2 : Nat) ^ 31 = 2147483648 := by norm_num
  have hlen' : s.data.length + 1 < 2147483648 := by rw [← h31]; exact hlen
  have hM : s.data.length < u32Mod := by unfold u32Mod; omega
  intro c1 outs av h
  rw [h31]
  unfold on_packet at h
  by_cases hok : segment_ok c s = true
  · rw [hok] at h
    simp only [Bool.not_true, Bool.false_eq_true, if_false] at h
    by_cases hack : s.ack = true
    · rw [hack] at h
      simp only [Bool.not_true, Bool.false_eq_true, if_false] at h
      rw [Option.bind_eq_some] at h
      obtain ⟨⟨c4, outs4⟩, hp, hf⟩ := h
      have hrecv3 :
          (finWaitStep (ackStep (synRcvdStep c s.ackn) s.ackn now)).recv = c.recv := by
        rw [finWaitStep_recv, ackStep_recv, synRcvdStep_recv]
      have h4 := payloadStep_recv_nxt _ s now c4 outs4 hp
      rw [hrecv3] at h4
      have h5 := finStep_recv_nxt c4 s now outs4 outs c1 av hf
      rcases h4 with h4 | ⟨hd, h4⟩
      · rcases h5 with h5 | h5
        · rw [h5, h4, wsub_self]
          omega
        · rw [h5, h4]
          have hb := wsub_wadd_one c.recv.nxt c.recv.nxt 0 (le_of_eq (wsub_self _))
            (by unfold u32Mod; omega)
          omega
      · rcases hoverlap with hd0 | hov
        · exact absurd hd0 hd
        · have hb : wsub c4.recv.nxt c.recv.nxt ≤ s.data.length := by
            rw [h4]
            exact wsub_wadd_le s.seq c.recv.nxt s.data.length hov hM
          rcases h5 with h5 | h5
          · rw [h5]
            omega
          · rw [h5]
            have hb2 := wsub_wadd_one c4.recv.nxt c.recv.nxt s.data.length hb
              (by unfold u32Mod; omega)
            omega
    · simp only [Bool.not_eq_true] at hack
      rw [hack] at h
      simp only [Bool.not_false, if_true, hsyn, Bool.false_eq_true, if_false,
        Option.some.injEq, Prod.mk.injEq] at h
      obtain ⟨h1, _⟩ := h
      rw [← h1, wsub_self]
      omega
  · simp only [Bool.not_eq_true] at hok
    rw [hok] at h
    simp only [Bool.not_false, if_true] at h
    rw [Option.map_eq_some'] at h
    obtain ⟨⟨pc, po⟩, hw, hpe⟩ := h
    simp only [Prod.mk.injEq] at hpe
    obtain ⟨h1, _⟩ := hpe
    have hpres := write_preserves _ _ _ _ _ _ hw
    rw [← h1, hpres.1, wsub_self]
    omega

/-- C9 witness: the amended theorem applied to connRecv100 receiving
the in-window two-byte segment segTwo, whose integration advances
recv.nxt from 100 to 102. -/
theorem C9_witness :
    on_packet connRecv100 segTwo 0 =
      some (connC9res, [outBareAck102], { read := true, write := false }) ∧
    wsub connC9res.recv.nxt connRecv100.recv.nxt < 2 ^ 31 :=
  ⟨by decide,
   C9_amended_recv_nxt_advance connRecv100 segTwo 0 rfl (Or.inr (by decide))
     (by decide) connC9res [outBareAck102] { read := true, write := false }
     (by decide)⟩

/-- C10 counterexample: the claim says nunacked never exceeds
unacked.len at entry to on_tick, in particular for a freshly accepted
SynRcvd connection.  Accepting the SYN segSyn yields exactly that
connection: its virtual SYN byte makes nunacked = 1 while unacked is
empty, and on_tick hits the underflowing u32 subtraction (none). -/
theorem C10_counterexample :
    (accept segSyn 3).1 = some (freshConn segSyn 3) ∧
    (freshConn segSyn 3).unacked.length <
      wsub ((freshConn segSyn 3).closed_at.getD (freshConn segSyn 3).send.nxt)
        (freshConn segSyn 3).send.una ∧
    on_tick (freshConn segSyn 3) 4 = none := by decide

/-- C10 (amended): for every freshly accepted SynRcvd connection whose
SYN+ACK is unacknowledged, the in-flight count is 1 (the virtual SYN
byte) while the unacked buffer is empty, so nunacked exceeds
unacked.len and the u32 subtraction nunsent = unacked.len - nunacked in
on_tick underflows (a panic in a debug build, modelled as none). -/
theorem C10_amended_syn_underflow (s : SegmentIn) (now now2 : Nat) (c : Connection)
    (hsyn : s.syn = true) (hc : (accept s now).1 = some c) :
    wsub (c.closed_at.getD c.send.nxt) c.send.una = 1 ∧ c.unacked = [] ∧
      on_tick c now2 = none := by
  rw [accept_syn s now hsyn] at hc
  simp only [Option.some.injEq] at hc
  subst hc
  have e1 : wsub 1 0 = 1 := by norm_num [wsub, u32Mod]
  refine ⟨?_, rfl, ?_⟩
  · rw [show (freshConn s now).closed_at = none from rfl,
      show (freshConn s now).send.nxt = 1 from rfl,
      show (freshConn s now).send.una = 0 from rfl, Option.getD_none]
    exact e1
  · refine on_tick_underflow _ now2 ?_
    rw [show (freshConn s now).closed_at = none from rfl,
      show (freshConn s now).send.nxt = 1 from rfl,
      show (freshConn s now).send.una = 0 from rfl,
      show (freshConn s now).unacked = [] from rfl, Option.getD_none, e1]
    exact Nat.zero_lt_one

/-- C10 witness: the amended theorem applied to the SYN segment segSyn
accepted at instant 3, with on_tick invoked at instant 4. -/
theorem C10_witness :
    segSyn.syn = true ∧ (accept segSyn 3).1 = some (freshConn segSyn 3) ∧
    (wsub ((freshConn segSyn 3).closed_at.getD (freshConn segSyn 3).send.nxt)
        (freshConn segSyn 3).send.una = 1 ∧
      (freshConn segSyn 3).unacked = [] ∧ on_tick (freshConn segSyn 3) 4 = none) :=
  ⟨rfl, by decide, C10_amended_syn_underflow segSyn 3 4 (freshConn segSyn 3) rfl (by decide)⟩

end TcpRust
